import Mathlib

/-! Verification development for the qiita parameter-table layer
(`qiita_db/parameters.py`) and the raw-data editor UI module
(`qiita_pet/uimodules/raw_data_tab.py`).

The Python code is shallowly embedded: SQL values become an inductive
`Value`, a table row is an association list from column names to values,
the database state of one parameter table is a list of rows together
with the next serial key, and every fallible Python operation returns
`Except QErr`.  The Python built-in exceptions (`KeyError` from
`set.remove` / `dict` indexing, `ValueError` from validation and
`list.remove`) and the domain errors are the constructors of `QErr`.
-/

namespace Qiita

/-- Lexicographic comparison of strings by code point, as Python compares
strings.  Written over the underlying character lists because the kernel
can evaluate those, which `String.ltb` (well-founded recursion over
iterators) cannot. -/
def strLeB (a b : String) : Bool := !(decide (b.data < a.data))

/-- The `Prop` form of `strLeB`, used as the ordering handed to the sort. -/
def strLe (a b : String) : Prop := strLeB a b = true

instance : DecidableRel strLe := fun _ _ => Bool.decEq _ _

instance : IsTotal String strLe :=
  ⟨fun a b => by
    have key : ∀ x y : String, strLe x y ↔ x ≤ y := fun x y => by
      simp only [strLe, strLeB, Bool.not_eq_true', decide_eq_false_iff_not]
      constructor
      · intro h
        exact not_lt.mp (fun hlt => h (String.lt_iff_toList_lt.mp hlt))
      · intro h
        exact fun hlt => absurd (String.lt_iff_toList_lt.mpr hlt) (not_lt.mpr h)
    rcases le_total a b with h | h
    · exact Or.inl ((key a b).mpr h)
    · exact Or.inr ((key b a).mpr h)⟩

instance : IsTrans String strLe :=
  ⟨fun a b c hab hbc => by
    have key : ∀ x y : String, strLe x y ↔ x ≤ y := fun x y => by
      simp only [strLe, strLeB, Bool.not_eq_true', decide_eq_false_iff_not]
      constructor
      · intro h
        exact not_lt.mp (fun hlt => h (String.lt_iff_toList_lt.mp hlt))
      · intro h
        exact fun hlt => absurd (String.lt_iff_toList_lt.mpr hlt) (not_lt.mpr h)
    exact (key a c).mpr (le_trans ((key a b).mp hab) ((key b c).mp hbc))⟩

/-- Ordering of association-list entries by key.  The Python `sorted` on
tuples breaks ties on the later components, but all lists sorted by the
embedded code pair each column name with data, and column names within
one table are distinct, so ties never arise. -/
def keyLe {α : Type} (p q : String × α) : Prop := strLe p.1 q.1

instance {α : Type} : DecidableRel (@keyLe α) := fun _ _ => Bool.decEq _ _

instance {α : Type} : IsTotal (String × α) keyLe :=
  ⟨fun a b => IsTotal.total (r := strLe) a.1 b.1⟩

instance {α : Type} : IsTrans (String × α) keyLe :=
  ⟨fun _ _ _ hab hbc => IsTrans.trans (r := strLe) _ _ _ hab hbc⟩

/-- Strict version of `keyLe`, used to show sorted lists with distinct
keys are unique. -/
def keyLt {α : Type} (p q : String × α) : Prop := p.1 < q.1

instance {α : Type} : IsAntisymm (String × α) keyLt :=
  ⟨fun _ _ h1 h2 => absurd h2 (lt_asymm h1)⟩

/-- Concatenation of a list of strings (structural, so the kernel can
evaluate it). -/
def joinAll : List String → String
  | [] => ""
  | s :: rest => s ++ joinAll rest

/-- Model of the Python `sorted` builtin: an ascending stable sort. -/
def pySorted {α : Type} (r : α → α → Prop) [DecidableRel r] (l : List α) : List α :=
  List.insertionSort r l

/-- A value stored in a parameter-table column. -/
inductive Value where
  | int (i : Int)
  | str (s : String)
  | bool (b : Bool)
deriving DecidableEq, Repr

/-- Python `str(value)`, as used by `"--%s %s" % ...` and
`"pick_otus:%s\t%s\n" % ...`. -/
def Value.render : Value → String
  | .int i => toString i
  | .str s => s
  | .bool b => if b then "True" else "False"

/-- Python truthiness of a value, as used by `if values[p_name]:`. -/
def Value.truthy : Value → Bool
  | .int i => !(i == 0)
  | .str s => !(s == "")
  | .bool b => b

/-- One table row: an association of column names to values (the `dict`
produced by `SELECT *`). -/
abbrev Row := List (String × Value)

/-- The state of one parameter table: its rows plus the next value of its
serial key column. -/
structure DB where
  rows : List Row
  nextId : Int
deriving DecidableEq, Repr

/-- The errors the embedded code can raise: the Python `KeyError` and
`ValueError`, the domain error `QiitaDBDuplicateError` (which carries the
class name and the offending keyword values; the Python message renders
the `kwargs` dict, whose ordering is interpreter-defined), and database
driver errors, which propagate unmodified. -/
inductive QErr where
  | keyError (key : String)
  | valueError (msg : String)
  | duplicateError (clsName : String) (kwargs : List (String × Value))
  | sqlError (msg : String)
deriving DecidableEq, Repr

/-- The data of one `BaseParameters` subclass: its class name, table, the
columns of its table with their SQL types (what `get_table_cols_w_type`
returns; `get_table_cols` is the first projection), and the attributes
`_column_id` and `_ignore_cols`. -/
structure ParamsCls where
  clsName : String
  table : String
  columns : List (String × String)
  column_id : String
  ignore_cols : List String
deriving DecidableEq, Repr

deriving instance DecidableEq for Except

/-- Python `set.remove`: deletes the element, raising `KeyError` when it
is absent. -/
def setRemove (s : List String) (x : String) : Except QErr (List String) :=
  if x ∈ s then .ok (s.filter (fun c => !(c == x))) else .error (.keyError x)

/-- Embeds `BaseParameters._check_columns`: drops the hard-coded
`param_set_name` and `preprocessed_params_id` entries from the column
set of the table, then raises `ValueError` naming the missing or the extra
columns of `kwargs`.  (Python joins the offending set in its own
iteration order; the embedding keeps list order.) -/
def _check_columns (cls : ParamsCls) (kwargs : List String) : Except QErr Unit :=
  match setRemove (cls.columns.map Prod.fst) "param_set_name" with
  | .error e => .error e
  | .ok dbCols =>
    match setRemove dbCols "preprocessed_params_id" with
    | .error e => .error e
    | .ok dbCols =>
      let missing := dbCols.filter (fun c => !(kwargs.contains c))
      if !missing.isEmpty then
        .error (.valueError ("Missing columns: " ++ String.intercalate ", " missing))
      else
        let extra := kwargs.filter (fun c => !(dbCols.contains c))
        if !extra.isEmpty then
          .error (.valueError ("Extra columns: " ++ String.intercalate ", " extra))
        else .ok ()

/-- The test `WHERE c1 = v1 AND c2 = v2 AND ...` applied to one row. -/
def rowMatches (r : Row) (kwargs : List (String × Value)) : Bool :=
  kwargs.all (fun kv => r.lookup kv.1 == some kv.2)

/-- The query `SELECT EXISTS(SELECT * FROM table WHERE ...)`. -/
def dbExists (db : DB) (kwargs : List (String × Value)) : Bool :=
  db.rows.any (fun r => rowMatches r kwargs)

/-- Embeds `BaseParameters.exists`: validates the columns, then runs the
`SELECT EXISTS` query.  The query reads the table, so the state comes
back unchanged. -/
def «exists» (cls : ParamsCls) (db : DB) (kwargs : List (String × Value)) :
    Except QErr (DB × Bool) :=
  match _check_columns cls (kwargs.map Prod.fst) with
  | .error e => .error e
  | .ok _ => .ok (db, dbExists db kwargs)

/-- Embeds `BaseParameters.create`: validates the columns, rejects a duplicate
value set, then issues the single
`INSERT ... RETURNING preprocessed_params_id`.  The serial key
column of the table (named by `_column_id` in every concrete class) receives the next
serial value; the `RETURNING` clause reads the hard-coded
`preprocessed_params_id` column of the new row and is a driver error when
the table has no such column. -/
def create (cls : ParamsCls) (db : DB) (param_set_name : Value)
    (kwargs : List (String × Value)) : Except QErr (DB × Int) :=
  match _check_columns cls (kwargs.map Prod.fst) with
  | .error e => .error e
  | .ok _ =>
    match «exists» cls db kwargs with
    | .error e => .error e
    | .ok (_, ex) =>
      if ex then .error (.duplicateError cls.clsName kwargs)
      else
        let newRow : Row :=
          (cls.column_id, Value.int db.nextId) :: ("param_set_name", param_set_name) :: kwargs
        match newRow.lookup "preprocessed_params_id" with
        | some (Value.int i) => .ok ({ rows := db.rows ++ [newRow], nextId := db.nextId + 1 }, i)
        | _ => .error (.sqlError "column preprocessed_params_id does not exist")

/-- Embeds `BaseParameters._get_values_as_dict`: `SELECT * FROM table WHERE
column_id = id`, fetching the first matching row as a dict. -/
def _get_values_as_dict (cls : ParamsCls) (db : DB) (id_ : Int) : Except QErr Row :=
  match db.rows.find? (fun r => r.lookup cls.column_id == some (.int id_)) with
  | some r => .ok r
  | none => .error (.sqlError "fetchone returned no row")

/-- Python `list.remove`: deletes the first occurrence, raising
`ValueError` when the element is absent. -/
def listRemove (l : List (String × String)) (x : String × String) :
    Except QErr (List (String × String)) :=
  if x ∈ l then .ok (l.erase x) else
    .error (.valueError "list.remove(x): x not in list")

/-- Python `dict[key]`: raises `KeyError` when the key is absent. -/
def dictGet (r : Row) (k : String) : Except QErr Value :=
  match r.lookup k with
  | some v => .ok v
  | none => .error (.keyError k)

/-- Python `del dict[key]`: raises `KeyError` when the key is absent. -/
def dictDel (r : Row) (k : String) : Except QErr Row :=
  match r.lookup k with
  | some _ => .ok (r.filter (fun p => !(p.1 == k)))
  | none => .error (.keyError k)

/-- The loop body of `BaseParameters.to_str`: walk the sorted column
list, skip the ignored columns, emit `--name` for a truthy boolean
column, nothing for a falsy one, and `--name value` otherwise. -/
def toStrItems (cls : ParamsCls) (values : Row) :
    List (String × String) → Except QErr (List String)
  | [] => .ok []
  | p :: rest =>
    if cls.ignore_cols.contains p.1 then toStrItems cls values rest
    else if p.2 == "boolean" then
      match dictGet values p.1 with
      | .error e => .error e
      | .ok v =>
        match toStrItems cls values rest with
        | .error e => .error e
        | .ok tl => .ok (if v.truthy then ("--" ++ p.1) :: tl else tl)
    else
      match dictGet values p.1 with
      | .error e => .error e
      | .ok v =>
        match toStrItems cls values rest with
        | .error e => .error e
        | .ok tl => .ok (("--" ++ p.1 ++ " " ++ v.render) :: tl)

/-- Embeds `BaseParameters.to_str`: removes the `[column_id, "bigint"]` entry
from the typed column list, fetches the row, walks the sorted remaining
columns and joins the parts with single spaces.  The reads leave the
table unchanged, so the state is returned as-is. -/
def to_str (cls : ParamsCls) (db : DB) (id_ : Int) : Except QErr (DB × String) :=
  match listRemove cls.columns (cls.column_id, "bigint") with
  | .error e => .error e
  | .ok tableCols =>
    match _get_values_as_dict cls db id_ with
    | .error e => .error e
    | .ok values =>
      match toStrItems cls values (pySorted keyLe tableCols) with
      | .error e => .error e
      | .ok items => .ok (db, String.intercalate " " items)

/-- Embeds `ProcessedSortmernaParams.reference`: `SELECT reference_id FROM table
WHERE column_id = id`. -/
def reference (cls : ParamsCls) (db : DB) (id_ : Int) : Except QErr (DB × Value) :=
  match db.rows.find? (fun r => r.lookup cls.column_id == some (.int id_)) with
  | some r =>
    match r.lookup "reference_id" with
    | some v => .ok (db, v)
    | none => .error (.sqlError "column reference_id does not exist")
  | none => .error (.sqlError "fetchone returned no row")

/-- Embeds `ProcessedSortmernaParams.to_file`: fetches the row, deletes the id
column from the dict, writes the fixed
`pick_otus:otu_picking_method<TAB>sortmerna` line and then one
`pick_otus:key<TAB>value` line per remaining non-ignored column in sorted
order.  The written text is returned; the reads leave the table
unchanged. -/
def to_file (cls : ParamsCls) (db : DB) (id_ : Int) : Except QErr (DB × String) :=
  match _get_values_as_dict cls db id_ with
  | .error e => .error e
  | .ok values =>
    match dictDel values cls.column_id with
    | .error e => .error e
    | .ok values =>
      let body := (pySorted keyLe values).foldl
        (fun acc p =>
          if cls.ignore_cols.contains p.1 then acc
          else acc ++ ("pick_otus:" ++ p.1 ++ "\t" ++ p.2.render ++ "\n")) ""
      .ok (db, "pick_otus:otu_picking_method\tsortmerna\n" ++ body)

/-- The class `PreprocessedIlluminaParams`.  `_column_id`, `_table` and
`_ignore_cols` are the class attributes from the source.  Modelled from
the spec: the column list of the table is read by `get_table_cols` from the
SQL schema, which is not under src; per spec section 3 the table has a
surrogate key, a human-readable name column and the value columns of the
Illumina preprocessing step. -/
def PreprocessedIlluminaParams : ParamsCls :=
  { clsName := "PreprocessedIlluminaParams"
    table := "preprocessed_sequence_illumina_params"
    columns := [("preprocessed_params_id", "bigint"), ("param_set_name", "varchar"),
                ("max_bad_run_length", "bigint"), ("rev_comp", "boolean"),
                ("barcode_type", "varchar")]
    column_id := "preprocessed_params_id"
    ignore_cols := ["param_set_name"] }

/-- The class `Preprocessed454Params`.  Modelled from the spec: columns as for
`PreprocessedIlluminaParams`, with 454 preprocessing value columns. -/
def Preprocessed454Params : ParamsCls :=
  { clsName := "Preprocessed454Params"
    table := "preprocessed_sequence_454_params"
    columns := [("preprocessed_params_id", "bigint"), ("param_set_name", "varchar"),
                ("min_seq_len", "bigint"), ("trim_seq_length", "boolean")]
    column_id := "preprocessed_params_id"
    ignore_cols := ["param_set_name"] }

/-- The class `ProcessedSortmernaParams`.  Modelled from the spec: the
surrogate key of the table is `processed_params_id` (its `_column_id`), the
name column is `param_set_name`, and the value columns are the OTU
picking parameters referencing a taxonomic reference (`reference_id`). -/
def ProcessedSortmernaParams : ParamsCls :=
  { clsName := "ProcessedSortmernaParams"
    table := "processed_params_sortmerna"
    columns := [("processed_params_id", "bigint"), ("param_set_name", "varchar"),
                ("reference_id", "bigint"), ("sortmerna_e_value", "bigint"),
                ("sortmerna_coverage", "bigint"), ("threads", "bigint")]
    column_id := "processed_params_id"
    ignore_cols := ["reference_id"] }

/-- The operations offered by the parameter-set accessor, for stating
frame conditions over operation sequences. -/
inductive Op where
  | opExists (kwargs : List (String × Value))
  | opCreate (param_set_name : Value) (kwargs : List (String × Value))
  | opToStr (id_ : Int)
  | opToFile (id_ : Int)
  | opReference (id_ : Int)

/-- The table state after one operation; an operation that raises leaves
the state as it was (each method issues at most one mutating statement,
at its end). -/
def runOp (cls : ParamsCls) (db : DB) : Op → DB
  | .opExists kwargs =>
    match «exists» cls db kwargs with
    | .ok p => p.1
    | .error _ => db
  | .opCreate n kwargs =>
    match create cls db n kwargs with
    | .ok p => p.1
    | .error _ => db
  | .opToStr id_ =>
    match to_str cls db id_ with
    | .ok p => p.1
    | .error _ => db
  | .opToFile id_ =>
    match to_file cls db id_ with
    | .ok p => p.1
    | .error _ => db
  | .opReference id_ =>
    match reference cls db id_ with
    | .ok p => p.1
    | .error _ => db

/-- Two rows carry the same full combination of non-key column values:
they agree on every table column other than the key column. -/
def sameVals (cls : ParamsCls) (r1 r2 : Row) : Prop :=
  ∀ c ∈ cls.columns.map Prod.fst, c ≠ cls.column_id → r1.lookup c = r2.lookup c

/-- The uniqueness invariant: no two rows of the table share the same
full combination of non-key column values. -/
def noDupVals (cls : ParamsCls) (db : DB) : Prop :=
  db.rows.Pairwise (fun r1 r2 => ¬ sameVals cls r1 r2)

/-- States reachable by a sequence of (successful) `create` operations.
Python keyword arguments always carry distinct keys, which the step
records. -/
inductive CreateReach (cls : ParamsCls) : DB → DB → Prop where
  | refl (db : DB) : CreateReach cls db db
  | step (db db' db'' : DB) (name : Value) (kwargs : List (String × Value)) (i : Int)
      (hnd : (kwargs.map Prod.fst).Nodup)
      (h : CreateReach cls db db')
      (hc : create cls db' name kwargs = .ok (db'', i)) : CreateReach cls db db''

/-- Rendering of a parameter set as stated by the spec: the instance
columns other than the id column and the ignored columns, sorted
alphabetically by column name, joined by single spaces; a boolean-typed
column contributes the bare flag exactly when its stored value is true,
every other column contributes the flag followed by its value. -/
def toStrSpec (cls : ParamsCls) (r : Row) : String :=
  let cols := cls.columns.filter
    (fun p => !(p.1 == cls.column_id) && !(cls.ignore_cols.contains p.1))
  String.intercalate " " ((pySorted keyLe cols).filterMap (fun p =>
    if p.2 == "boolean" then
      if r.lookup p.1 == some (.bool true) then some ("--" ++ p.1) else none
    else
      some ("--" ++ p.1 ++ " " ++ (((r.lookup p.1).map Value.render).getD ""))))

/-- Parameter-file text as stated by the spec: the fixed
`pick_otus:otu_picking_method<TAB>sortmerna` line, then one
`pick_otus:key<TAB>value` line for each stored column except the id
column `processed_params_id` and the ignored column `reference_id`, in
ascending key order, each line tab-separated and newline-terminated. -/
def toFileSpec (r : Row) : String :=
  "pick_otus:otu_picking_method\tsortmerna\n" ++
  joinAll ((pySorted keyLe (r.filter
      (fun p => !(p.1 == "processed_params_id") && !(p.1 == "reference_id")))).map
    (fun p => "pick_otus:" ++ p.1 ++ "\t" ++ p.2.render ++ "\n"))

/-- The contribution of one non-ignored column to the `to_str` output. -/
def toStrInner (values : Row) (p : String × String) : Option String :=
  if p.2 == "boolean" then
    match values.lookup p.1 with
    | some v => if v.truthy then some ("--" ++ p.1) else none
    | none => none
  else
    (values.lookup p.1).map (fun v => "--" ++ p.1 ++ " " ++ v.render)

/-- The contribution of one column to the `to_str` output. -/
def toStrItem (cls : ParamsCls) (values : Row) (p : String × String) : Option String :=
  if cls.ignore_cols.contains p.1 then none else toStrInner values p

/-! The raw-data editor UI module (`RawDataEditorTab.render`).  Only the
purely derived view-model pieces named by the claims are embedded: the
`is_editable` flag, the link-status flags and message, and the ENA
investigation-type option list. -/

/-- Python `str.startswith`, over character lists so the kernel can
evaluate it. -/
def startswith (s pre : String) : Bool := pre.data.isPrefixOf s.data

/-- The flag `is_editable`: the study status equals `sandbox` or the user
level equals `admin`. -/
def is_editable (study_status user_level : String) : Bool :=
  study_status == "sandbox" || user_level == "admin"

/-- The three link-related template variables computed by
`RawDataEditorTab.render`. -/
structure LinkFlags where
  show_unlink_btn : Bool
  disable_link_btn : Bool
  link_msg : String
deriving DecidableEq, Repr

/-- The link-status block of `RawDataEditorTab.render`: the defaults
(`show_unlink_btn = False`, `disable_link_btn = True`) survive in the
`linking`/`unlinking` branches; otherwise the link button is enabled, the
unlink button is shown when the study is editable and the Python list of
attached files is truthy (non-empty), and a status starting with
`failed` produces the error message. -/
def linkFlags {α : Type} (raw_data_link_status : String) (editable : Bool)
    (raw_data_files : List α) : LinkFlags :=
  if raw_data_link_status = "linking" then
    { show_unlink_btn := false, disable_link_btn := true, link_msg := "Linking files..." }
  else if raw_data_link_status = "unlinking" then
    { show_unlink_btn := false, disable_link_btn := true, link_msg := "Unlinking files..." }
  else
    { show_unlink_btn := editable && !raw_data_files.isEmpty
      disable_link_btn := false
      link_msg :=
        if startswith raw_data_link_status "failed" then
          "Error (un)linkingfiles: " ++ raw_data_link_status
        else "" }

/-- One rendered drop-down entry: the Python format
`<option value="%s">%s</option>` applied to the term twice. -/
def optionHtml (v : String) : String :=
  "<option value=\"" ++ v ++ "\">" ++ v ++ "</option>"

/-- The ENA investigation-type list of `RawDataEditorTab.render`: walk
the sorted ontology terms appending an option for every term other than
`Other`, then append the `Other` option at the bottom. -/
def ena_terms (terms : List String) : List String :=
  (pySorted strLe terms).foldl
    (fun acc v => if v ≠ "Other" then acc ++ [optionHtml v] else acc) []
  ++ [optionHtml "Other"]

/-! Concrete fixtures: a populated table for each concrete class. -/

/-- A complete assignment of the non-key, non-name columns of the
sortmerna table. -/
def smKwargs : List (String × Value) :=
  [("reference_id", .int 1), ("sortmerna_e_value", .int 1),
   ("sortmerna_coverage", .int 97), ("threads", .int 1)]

/-- An existing sortmerna row with exactly the values of `smKwargs`. -/
def smRow : Row :=
  [("processed_params_id", .int 1), ("param_set_name", .str "default"),
   ("reference_id", .int 1), ("sortmerna_e_value", .int 1),
   ("sortmerna_coverage", .int 97), ("threads", .int 1)]

/-- A sortmerna table holding `smRow`. -/
def smDb : DB := { rows := [smRow], nextId := 2 }

/-- A complete assignment of the non-key, non-name columns of the
Illumina table. -/
def ilKwargs : List (String × Value) :=
  [("max_bad_run_length", .int 3), ("rev_comp", .bool true),
   ("barcode_type", .str "golay_12")]

/-- An existing Illumina row with exactly the values of `ilKwargs`. -/
def ilRow : Row :=
  [("preprocessed_params_id", .int 1), ("param_set_name", .str "default"),
   ("max_bad_run_length", .int 3), ("rev_comp", .bool true),
   ("barcode_type", .str "golay_12")]

/-- An Illumina table holding `ilRow`. -/
def ilDb : DB := { rows := [ilRow], nextId := 2 }

/-- An empty parameter table. -/
def emptyDb : DB := { rows := [], nextId := 1 }

/-- The row inserted by a successful `create` of `ilKwargs` under the
name `novel` into the empty Illumina table. -/
def ilNewRow : Row :=
  ("preprocessed_params_id", Value.int 1) :: ("param_set_name", Value.str "novel") :: ilKwargs

/-- The Illumina table after that successful `create`. -/
def ilDb1 : DB := { rows := [ilNewRow], nextId := 2 }

/-! General lemmas: association lists with distinct keys, uniqueness of
key-sorted lists, and accumulator folds. -/

theorem strLe_iff (a b : String) : strLe a b ↔ a ≤ b := by
  simp only [strLe, strLeB, Bool.not_eq_true', decide_eq_false_iff_not]
  constructor
  · intro h
    exact not_lt.mp (fun hlt => h (String.lt_iff_toList_lt.mp hlt))
  · intro h
    exact fun hlt => absurd (String.lt_iff_toList_lt.mpr hlt) (not_lt.mpr h)

theorem lookup_of_mem_nodup {β : Type} {l : List (String × β)}
    (hnd : (l.map Prod.fst).Nodup) {k : String} {v : β} (hm : (k, v) ∈ l) :
    l.lookup k = some v := by
  induction l with
  | nil => cases hm
  | cons p rest ih =>
    have hnd' : p.1 ∉ rest.map Prod.fst ∧ (rest.map Prod.fst).Nodup :=
      List.nodup_cons.mp (by rw [List.map_cons] at hnd; exact hnd)
    rcases List.mem_cons.mp hm with h | h
    · subst h
      simp [List.lookup]
    · have hk : (k == p.1) = false := by
        refine beq_eq_false_iff_ne.mpr ?_
        intro he
        exact hnd'.1 (he ▸ List.mem_map_of_mem Prod.fst h)
      simp only [List.lookup, hk]
      exact ih hnd'.2 h

theorem lookup_isSome_of_mem_keys {β : Type} {l : List (String × β)} {k : String}
    (hm : k ∈ l.map Prod.fst) : (l.lookup k).isSome = true := by
  rcases List.mem_map.mp hm with ⟨p, hp, hk⟩
  exact List.lookup_isSome_iff.mpr ⟨p, hp, by simp [hk]⟩

theorem erase_eq_filter_key {β : Type} [DecidableEq β] {l : List (String × β)}
    (hnd : (l.map Prod.fst).Nodup) {x : String × β} (hm : x ∈ l) :
    l.erase x = l.filter (fun p => !(p.1 == x.1)) := by
  induction l with
  | nil => cases hm
  | cons p rest ih =>
    have hnd' : p.1 ∉ rest.map Prod.fst ∧ (rest.map Prod.fst).Nodup :=
      List.nodup_cons.mp (by rw [List.map_cons] at hnd; exact hnd)
    rcases List.mem_cons.mp hm with h | h
    · subst h
      rw [List.erase_cons, if_pos (by simp)]
      rw [List.filter_cons, if_neg (by simp)]
      have : rest.filter (fun p => !(p.1 == x.1)) = rest.filter (fun _ => true) := by
        refine List.filter_congr ?_
        intro q hq
        have : ¬(q.1 = x.1) := by
          intro he
          exact hnd'.1 (he ▸ List.mem_map_of_mem Prod.fst hq)
        simp [this]
      simp [this]
    · have hxp : ¬(p == x) = true := by
        intro hbe
        have : p = x := by simpa using hbe
        subst this
        exact hnd'.1 (List.mem_map_of_mem Prod.fst h)
      rw [List.erase_cons, if_neg hxp]
      have hp1 : ¬(p.1 = x.1) := by
        intro he
        have : x.1 ∈ rest.map Prod.fst := List.mem_map_of_mem Prod.fst h
        exact hnd'.1 (he ▸ this)
      rw [List.filter_cons, if_pos (by simpa using hp1)]
      rw [ih hnd'.2 h]

theorem pairwise_keyLt_of_sorted {β : Type} {l : List (String × β)}
    (hs : List.Sorted keyLe l) (hnd : (l.map Prod.fst).Nodup) :
    l.Pairwise keyLt := by
  have hne : l.Pairwise (fun p q : String × β => p.1 ≠ q.1) := by
    have := (List.pairwise_map (f := (Prod.fst : String × β → String))).mp hnd
    exact this
  have := hs.and hne
  exact this.imp (fun h => lt_of_le_of_ne ((strLe_iff _ _).mp h.1) h.2)

theorem sorted_key_unique {β : Type} {l1 l2 : List (String × β)}
    (hp : l1.Perm l2) (h1 : l1.Pairwise keyLt) (h2 : l2.Pairwise keyLt) :
    l1 = l2 :=
  List.eq_of_perm_of_sorted hp h1 h2

theorem nodup_keys_of_perm {β : Type} {l1 l2 : List (String × β)}
    (hp : l1.Perm l2) (hnd : (l2.map Prod.fst).Nodup) :
    (l1.map Prod.fst).Nodup :=
  ((hp.map Prod.fst).nodup_iff).mpr hnd

theorem nodup_keys_filter {β : Type} {l : List (String × β)} {p : String × β → Bool}
    (hnd : (l.map Prod.fst).Nodup) : ((l.filter p).map Prod.fst).Nodup :=
  List.Nodup.sublist (List.Sublist.map Prod.fst (List.filter_sublist l)) hnd

theorem pySorted_filter_comm {β : Type} {l : List (String × β)} (p : String × β → Bool)
    (hnd : (l.map Prod.fst).Nodup) :
    (pySorted keyLe l).filter p = pySorted keyLe (l.filter p) := by
  have hperm1 : ((pySorted keyLe l).filter p).Perm (l.filter p) :=
    (List.perm_insertionSort keyLe l).filter p
  have hperm2 : (pySorted keyLe (l.filter p)).Perm (l.filter p) :=
    List.perm_insertionSort keyLe (l.filter p)
  have hndf : ((l.filter p).map Prod.fst).Nodup := nodup_keys_filter hnd
  have hs1 : ((pySorted keyLe l).filter p).Pairwise keyLt :=
    pairwise_keyLt_of_sorted ((List.sorted_insertionSort keyLe l).filter p)
      (nodup_keys_of_perm hperm1 hndf)
  have hs2 : (pySorted keyLe (l.filter p)).Pairwise keyLt :=
    pairwise_keyLt_of_sorted (List.sorted_insertionSort keyLe (l.filter p))
      (nodup_keys_of_perm hperm2 hndf)
  exact sorted_key_unique (hperm1.trans hperm2.symm) hs1 hs2

theorem filterMap_skip {α β : Type} (c : α → Bool) (h : α → Option β) (l : List α) :
    l.filterMap (fun a => if c a then none else h a)
      = (l.filter (fun a => !(c a))).filterMap h := by
  induction l with
  | nil => rfl
  | cons a rest ih =>
    by_cases hc : c a
    · simp [List.filterMap_cons, List.filter_cons, hc, ih]
    · simp [List.filterMap_cons, List.filter_cons, hc, ih]

theorem foldl_append_strings {α : Type} (c : α → Bool) (f : α → String) (l : List α) :
    ∀ s : String,
      l.foldl (fun acc a => if c a = true then acc else acc ++ f a) s
        = s ++ joinAll ((l.filter (fun a => !(c a))).map f) := by
  induction l with
  | nil => intro s; simp [joinAll]
  | cons a rest ih =>
    intro s
    by_cases hc : c a = true
    · rw [List.foldl_cons, if_pos hc, List.filter_cons]
      rw [ih s]
      have hb : (!(c a)) = false := by simp [hc]
      rw [if_neg (by simp [hb])]
    · rw [List.foldl_cons, if_neg hc, List.filter_cons]
      rw [ih (s ++ f a)]
      have hb : (!(c a)) = true := by simp [hc]
      rw [if_pos hb]
      simp [joinAll, String.append_assoc]

theorem foldl_append_options (f : String → String) (l : List String) :
    ∀ acc : List String,
      l.foldl (fun acc v => if v ≠ "Other" then acc ++ [f v] else acc) acc
        = acc ++ (l.filter (fun v => !(v == "Other"))).map f := by
  induction l with
  | nil => intro acc; simp
  | cons a rest ih =>
    intro acc
    by_cases hc : a = "Other"
    · subst hc
      rw [List.foldl_cons, if_neg (by simp), List.filter_cons]
      rw [ih acc]
      simp
    · rw [List.foldl_cons, if_pos hc, List.filter_cons]
      rw [ih (acc ++ [f a])]
      have hb : (!(a == "Other")) = true := by simp [hc]
      rw [if_pos hb]
      simp

/-! Lemmas unpacking the embedded operations. -/

theorem setRemove_ok {s : List String} {x : String} {s' : List String}
    (h : setRemove s x = .ok s') : x ∈ s ∧ s' = s.filter (fun c => !(c == x)) := by
  unfold setRemove at h
  by_cases hx : x ∈ s
  · rw [if_pos hx] at h
    injection h with h'
    exact ⟨hx, h'.symm⟩
  · rw [if_neg hx] at h
    cases h

theorem check_columns_ok_keys {cls : ParamsCls} {ks : List String}
    (h : _check_columns cls ks = .ok ()) :
    ∀ k ∈ ks, k ∈ cls.columns.map Prod.fst ∧ k ≠ "param_set_name" ∧
      k ≠ "preprocessed_params_id" := by
  unfold _check_columns at h
  cases h1 : setRemove (cls.columns.map Prod.fst) "param_set_name" with
  | error e => rw [h1] at h; dsimp only at h; cases h
  | ok cols1 =>
    rw [h1] at h
    dsimp only at h
    cases h2 : setRemove cols1 "preprocessed_params_id" with
    | error e => rw [h2] at h; dsimp only at h; cases h
    | ok cols2 =>
      rw [h2] at h
      dsimp only at h
      split at h
      · cases h
      · split at h
        · cases h
        · rename_i hextra
          have hX : (ks.filter (fun c => !(cols2.contains c))).isEmpty = true := by
            cases hB : (ks.filter (fun c => !(cols2.contains c))).isEmpty with
            | true => rfl
            | false => exact absurd (by rw [hB]; rfl) hextra
          have hext : ks.filter (fun c => !(cols2.contains c)) = [] :=
            List.isEmpty_iff.mp hX
          intro k hk
          have hkin : cols2.contains k = true := by
            by_contra hc
            have hcf : cols2.contains k = false := Bool.eq_false_iff.mpr hc
            have hmem : k ∈ ks.filter (fun c => !(cols2.contains c)) :=
              List.mem_filter.mpr ⟨hk, by rw [hcf]; rfl⟩
            rw [hext] at hmem
            cases hmem
          have hk2 : k ∈ cols2 := by simpa using hkin
          obtain ⟨_, hc1⟩ := setRemove_ok h1
          obtain ⟨_, hc2⟩ := setRemove_ok h2
          rw [hc2, hc1] at hk2
          have ha := List.mem_filter.mp hk2
          have hb := List.mem_filter.mp ha.1
          refine ⟨hb.1, ?_, ?_⟩
          · simpa using hb.2
          · simpa using ha.2

theorem create_ok_destruct {cls : ParamsCls} {db db2 : DB} {n : Value}
    {kw : List (String × Value)} {i : Int}
    (h : create cls db n kw = .ok (db2, i)) :
    _check_columns cls (kw.map Prod.fst) = .ok () ∧
    dbExists db kw = false ∧
    db2.rows = db.rows ++
      [(cls.column_id, Value.int db.nextId) :: ("param_set_name", n) :: kw] ∧
    db2.nextId = db.nextId + 1 := by
  unfold create «exists» at h
  cases hcc : _check_columns cls (kw.map Prod.fst) with
  | error e => rw [hcc] at h; dsimp only at h; cases h
  | ok u =>
    cases u
    rw [hcc] at h
    dsimp only at h
    cases hex : dbExists db kw with
    | true => rw [hex] at h; simp at h
    | false =>
      rw [hex] at h
      simp only [Bool.false_eq_true, if_false] at h
      cases hlk : (((cls.column_id, Value.int db.nextId) ::
          ("param_set_name", n) :: kw).lookup "preprocessed_params_id") with
      | none => rw [hlk] at h; dsimp only at h; cases h
      | some v =>
        rw [hlk] at h
        cases v with
        | int j =>
          dsimp only at h
          injection h with h'
          injection h' with ha hb
          refine ⟨rfl, rfl, ?_, ?_⟩
          · rw [← ha]
          · rw [← ha]
        | str s => dsimp only at h; cases h
        | bool b => dsimp only at h; cases h

theorem check_columns_err_sortmerna (ks : List String) :
    _check_columns ProcessedSortmernaParams ks = .error (.keyError "preprocessed_params_id") :=
  rfl

theorem create_sortmerna_err (db : DB) (n : Value) (kw : List (String × Value)) :
    create ProcessedSortmernaParams db n kw = .error (.keyError "preprocessed_params_id") := by
  unfold create
  rw [check_columns_err_sortmerna]

theorem create_preserves_noDupVals {cls : ParamsCls}
    (hcid : cls.column_id = "preprocessed_params_id")
    {db db2 : DB} {n : Value} {kw : List (String × Value)} {i : Int}
    (hnd : (kw.map Prod.fst).Nodup)
    (hok : create cls db n kw = .ok (db2, i))
    (hinv : noDupVals cls db) : noDupVals cls db2 := by
  obtain ⟨hcc, hex, hrows, _⟩ := create_ok_destruct hok
  unfold noDupVals
  rw [hrows, List.pairwise_append]
  refine ⟨hinv, List.pairwise_singleton _ _, ?_⟩
  intro r hr nr hnr
  have hnr' : nr = (cls.column_id, Value.int db.nextId) :: ("param_set_name", n) :: kw := by
    simpa using hnr
  subst hnr'
  intro hsv
  have hmatch : rowMatches r kw = true := by
    rw [rowMatches, List.all_eq_true]
    intro kv hkv
    have hkfacts := check_columns_ok_keys hcc kv.1 (List.mem_map_of_mem Prod.fst hkv)
    have hne_cid : kv.1 ≠ cls.column_id := by rw [hcid]; exact hkfacts.2.2
    have h1 := hsv kv.1 hkfacts.1 hne_cid
    have hk1 : (kv.1 == cls.column_id) = false := beq_eq_false_iff_ne.mpr hne_cid
    have hk2 : (kv.1 == "param_set_name") = false := beq_eq_false_iff_ne.mpr hkfacts.2.1
    have h2 : ((cls.column_id, Value.int db.nextId) ::
        ("param_set_name", n) :: kw).lookup kv.1 = some kv.2 := by
      simp only [List.lookup, hk1, hk2]
      exact lookup_of_mem_nodup hnd hkv
    rw [h1, h2]
    simp
  have hx : dbExists db kw = true := by
    rw [dbExists, List.any_eq_true]
    exact ⟨r, hr, hmatch⟩
  rw [hex] at hx
  cases hx

theorem runOp_read_exists (cls : ParamsCls) (db : DB) (kw : List (String × Value)) :
    runOp cls db (.opExists kw) = db := by
  simp only [runOp]
  cases h : «exists» cls db kw with
  | error e => rfl
  | ok p =>
    unfold «exists» at h
    cases hcc : _check_columns cls (kw.map Prod.fst) with
    | error e => rw [hcc] at h; cases h
    | ok u =>
      rw [hcc] at h
      injection h with h'
      rw [← h']

theorem runOp_read_to_str (cls : ParamsCls) (db : DB) (id_ : Int) :
    runOp cls db (.opToStr id_) = db := by
  simp only [runOp]
  cases h : to_str cls db id_ with
  | error e => rfl
  | ok p =>
    unfold to_str at h
    cases h1 : listRemove cls.columns (cls.column_id, "bigint") with
    | error e => rw [h1] at h; dsimp only at h; cases h
    | ok tc =>
      rw [h1] at h
      dsimp only at h
      cases h2 : _get_values_as_dict cls db id_ with
      | error e => rw [h2] at h; dsimp only at h; cases h
      | ok values =>
        rw [h2] at h
        dsimp only at h
        cases h3 : toStrItems cls values (pySorted keyLe tc) with
        | error e => rw [h3] at h; dsimp only at h; cases h
        | ok items =>
          rw [h3] at h
          dsimp only at h
          injection h with h'
          rw [← h']

theorem runOp_read_to_file (cls : ParamsCls) (db : DB) (id_ : Int) :
    runOp cls db (.opToFile id_) = db := by
  simp only [runOp]
  cases h : to_file cls db id_ with
  | error e => rfl
  | ok p =>
    unfold to_file at h
    cases h1 : _get_values_as_dict cls db id_ with
    | error e => rw [h1] at h; dsimp only at h; cases h
    | ok values =>
      rw [h1] at h
      dsimp only at h
      cases h2 : dictDel values cls.column_id with
      | error e => rw [h2] at h; dsimp only at h; cases h
      | ok values2 =>
        rw [h2] at h
        dsimp only at h
        injection h with h'
        rw [← h']

theorem runOp_read_reference (cls : ParamsCls) (db : DB) (id_ : Int) :
    runOp cls db (.opReference id_) = db := by
  simp only [runOp]
  cases h : reference cls db id_ with
  | error e => rfl
  | ok p =>
    unfold reference at h
    cases h1 : db.rows.find? (fun r => r.lookup cls.column_id == some (.int id_)) with
    | none => rw [h1] at h; dsimp only at h; cases h
    | some r =>
      rw [h1] at h
      dsimp only at h
      cases h2 : r.lookup "reference_id" with
      | none => rw [h2] at h; dsimp only at h; cases h
      | some v =>
        rw [h2] at h
        dsimp only at h
        injection h with h'
        rw [← h']

theorem runOp_create_frame (cls : ParamsCls) (db : DB) (n : Value)
    (kw : List (String × Value)) :
    runOp cls db (.opCreate n kw) = db ∨
      ∃ r, (runOp cls db (.opCreate n kw)).rows = db.rows ++ [r] ∧
           (runOp cls db (.opCreate n kw)).nextId = db.nextId + 1 := by
  simp only [runOp]
  cases h : create cls db n kw with
  | error e => exact Or.inl rfl
  | ok p =>
    have h' : create cls db n kw = .ok (p.1, p.2) := by rw [h]
    obtain ⟨_, _, hrows, hnext⟩ := create_ok_destruct h'
    exact Or.inr ⟨_, hrows, hnext⟩

theorem runOp_rows (cls : ParamsCls) (db : DB) (op : Op) :
    ∃ t, (runOp cls db op).rows = db.rows ++ t := by
  cases op with
  | opExists kw => exact ⟨[], by rw [runOp_read_exists]; simp⟩
  | opToStr i => exact ⟨[], by rw [runOp_read_to_str]; simp⟩
  | opToFile i => exact ⟨[], by rw [runOp_read_to_file]; simp⟩
  | opReference i => exact ⟨[], by rw [runOp_read_reference]; simp⟩
  | opCreate n kw =>
    rcases runOp_create_frame cls db n kw with h | ⟨r, hr, _⟩
    · exact ⟨[], by rw [h]; simp⟩
    · exact ⟨[r], hr⟩

theorem foldl_runOp_rows (cls : ParamsCls) :
    ∀ (ops : List Op) (db : DB), ∃ t, (ops.foldl (runOp cls) db).rows = db.rows ++ t := by
  intro ops
  induction ops with
  | nil => intro db; exact ⟨[], by simp⟩
  | cons op rest ih =>
    intro db
    obtain ⟨t1, h1⟩ := runOp_rows cls db op
    obtain ⟨t2, h2⟩ := ih (runOp cls db op)
    exact ⟨t1 ++ t2, by rw [List.foldl_cons, h2, h1, List.append_assoc]⟩

theorem toStrItems_eq {cls : ParamsCls} {values : Row} :
    ∀ {l : List (String × String)},
      (∀ p ∈ l, (values.lookup p.1).isSome = true) →
      toStrItems cls values l = .ok (l.filterMap (toStrItem cls values)) := by
  intro l
  induction l with
  | nil => intro _; rfl
  | cons p rest ih =>
    intro hall
    have hrest := ih (fun q hq => hall q (List.mem_cons_of_mem p hq))
    have hp := hall p (List.mem_cons_self p rest)
    obtain ⟨v, hv⟩ := Option.isSome_iff_exists.mp hp
    by_cases hig : p.1 ∈ cls.ignore_cols
    · rw [show toStrItems cls values (p :: rest) = toStrItems cls values rest by
        simp [toStrItems, hig]]
      rw [hrest]
      simp [List.filterMap_cons, toStrItem, hig]
    · by_cases hbool : p.2 = "boolean"
      · have hstep : toStrItems cls values (p :: rest)
            = match toStrItems cls values rest with
              | .error e => .error e
              | .ok tl => .ok (if v.truthy then ("--" ++ p.1) :: tl else tl) := by
          simp [toStrItems, hig, hbool, dictGet, hv]
        rw [hstep, hrest]
        by_cases ht : v.truthy = true
        · simp [List.filterMap_cons, toStrItem, toStrInner, hig, hbool, hv, ht]
        · have ht' : v.truthy = false := Bool.eq_false_iff.mpr ht
          simp [List.filterMap_cons, toStrItem, toStrInner, hig, hbool, hv, ht']
      · have hstep : toStrItems cls values (p :: rest)
            = match toStrItems cls values rest with
              | .error e => .error e
              | .ok tl => .ok (("--" ++ p.1 ++ " " ++ v.render) :: tl) := by
          simp [toStrItems, hig, hbool, dictGet, hv]
        rw [hstep, hrest]
        simp [List.filterMap_cons, toStrItem, toStrInner, hig, hbool, hv]

/-- Claim C4: for every existing parameter-set instance (a row fetched by
`_get_values_as_dict` from a table whose column names are distinct, whose
id column is typed `bigint`, whose row carries exactly the columns of
the table, and whose boolean columns store booleans), `to_str` returns the
columns of the instance other than the id column and the ignored columns,
sorted alphabetically by column name and joined by single spaces, where a
boolean column contributes the bare flag `--name` exactly when its stored
value is true and every other column contributes `--name value`. -/
theorem C4_to_str_renders_sorted_flags (cls : ParamsCls) (db : DB) (id_ : Int) (r : Row)
    (hfind : _get_values_as_dict cls db id_ = .ok r)
    (hnd : (cls.columns.map Prod.fst).Nodup)
    (hid : (cls.column_id, "bigint") ∈ cls.columns)
    (hkeys : r.map Prod.fst = cls.columns.map Prod.fst)
    (hbool : ∀ p ∈ cls.columns, p.2 = "boolean" →
      ∃ b, r.lookup p.1 = some (Value.bool b)) :
    to_str cls db id_ = .ok (db, toStrSpec cls r) := by
  have hrm : listRemove cls.columns (cls.column_id, "bigint")
      = .ok (cls.columns.filter (fun p => !(p.1 == cls.column_id))) := by
    unfold listRemove
    rw [if_pos hid, erase_eq_filter_key hnd hid]
  have hmemA : ∀ p ∈ pySorted keyLe (cls.columns.filter (fun q => !(q.1 == cls.column_id))),
      (r.lookup p.1).isSome = true := by
    intro p hp
    have hp2 := (List.perm_insertionSort keyLe _).mem_iff.mp hp
    have hp3 := (List.mem_filter.mp hp2).1
    exact lookup_isSome_of_mem_keys (by rw [hkeys]; exact List.mem_map_of_mem Prod.fst hp3)
  unfold to_str
  rw [hrm]
  dsimp only
  rw [hfind]
  dsimp only
  rw [toStrItems_eq hmemA]
  dsimp only
  refine congrArg (fun s => Except.ok (db, s)) ?_
  unfold toStrSpec
  dsimp only
  refine congrArg (String.intercalate " ") ?_
  rw [show (toStrItem cls r) = (fun p : String × String =>
      if cls.ignore_cols.contains p.1 then none else toStrInner r p) from rfl]
  rw [filterMap_skip]
  rw [pySorted_filter_comm _ (nodup_keys_filter hnd)]
  rw [List.filter_filter]
  have hfred : (cls.columns.filter
        (fun a => !(cls.ignore_cols.contains a.1) && !(a.1 == cls.column_id)))
      = cls.columns.filter
        (fun p => !(p.1 == cls.column_id) && !(cls.ignore_cols.contains p.1)) :=
    List.filter_congr (fun x _ => Bool.and_comm _ _)
  rw [hfred]
  refine List.filterMap_congr ?_
  intro p hp
  have hpB := (List.perm_insertionSort keyLe _).mem_iff.mp hp
  have hcols : p ∈ cls.columns := (List.mem_filter.mp hpB).1
  by_cases hb : p.2 = "boolean"
  · obtain ⟨b, hvb⟩ := hbool p hcols hb
    cases b <;> simp [toStrInner, Value.truthy, hb, hvb]
  · have hks : (r.lookup p.1).isSome = true :=
      lookup_isSome_of_mem_keys (by rw [hkeys]; exact List.mem_map_of_mem Prod.fst hcols)
    obtain ⟨v, hv⟩ := Option.isSome_iff_exists.mp hks
    simp [toStrInner, hb, hv]

/-- Claim C5: for every existing `ProcessedSortmernaParams` instance (a
row fetched by `_get_values_as_dict`, with distinct keys, among them the
id column `processed_params_id`), `to_file` writes exactly the line
`pick_otus:otu_picking_method<TAB>sortmerna`, then one line
`pick_otus:key<TAB>value` for each stored column except
`processed_params_id` and the ignored `reference_id`, in ascending key
order, each tab-separated and newline-terminated. -/
theorem C5_to_file_format (db : DB) (id_ : Int) (r : Row)
    (hfind : _get_values_as_dict ProcessedSortmernaParams db id_ = .ok r)
    (hnd : (r.map Prod.fst).Nodup)
    (hidm : "processed_params_id" ∈ r.map Prod.fst) :
    to_file ProcessedSortmernaParams db id_ = .ok (db, toFileSpec r) := by
  have hdel : dictDel r "processed_params_id"
      = .ok (r.filter (fun p => !(p.1 == "processed_params_id"))) := by
    unfold dictDel
    have hs := lookup_isSome_of_mem_keys hidm
    cases hl : r.lookup "processed_params_id" with
    | none => rw [hl] at hs; cases hs
    | some v => rfl
  have hcol : ProcessedSortmernaParams.column_id = "processed_params_id" := rfl
  unfold to_file
  rw [hfind]
  dsimp only
  rw [hcol, hdel]
  dsimp only
  rw [show (pySorted keyLe (r.filter (fun p => !(p.1 == "processed_params_id")))).foldl
      (fun acc p => if ProcessedSortmernaParams.ignore_cols.contains p.1 then acc
        else acc ++ ("pick_otus:" ++ p.1 ++ "\t" ++ p.2.render ++ "\n")) ""
    = "" ++ joinAll (((pySorted keyLe (r.filter
          (fun p => !(p.1 == "processed_params_id")))).filter
        (fun p => !(ProcessedSortmernaParams.ignore_cols.contains p.1))).map
        (fun p => "pick_otus:" ++ p.1 ++ "\t" ++ p.2.render ++ "\n"))
    from foldl_append_strings _ _ _ ""]
  rw [pySorted_filter_comm _ (nodup_keys_filter hnd)]
  rw [List.filter_filter]
  have hfred : (r.filter (fun a =>
        !(ProcessedSortmernaParams.ignore_cols.contains a.1)
          && !(a.1 == "processed_params_id")))
      = r.filter (fun p => !(p.1 == "processed_params_id") && !(p.1 == "reference_id")) := by
    refine List.filter_congr ?_
    intro x _
    by_cases h1 : x.1 = "processed_params_id" <;> by_cases h2 : x.1 = "reference_id" <;>
      simp [h1, h2, ProcessedSortmernaParams]
  rw [hfred]
  unfold toFileSpec
  refine congrArg (fun s => Except.ok (db, s)) ?_
  simp

/-- Claim C1 (code bug): on `ProcessedSortmernaParams`, `create` with a
complete assignment whose value combination is already present raises
`KeyError` — `_check_columns` removes the hard-coded
`preprocessed_params_id`, which that table does not have — instead of the
claimed `QiitaDBDuplicateError`; the error also means no row is inserted.
On the preprocessed classes the duplicate error is raised as claimed. -/
theorem C1_duplicate_create_behavior :
    create ProcessedSortmernaParams smDb (.str "default2") smKwargs
      = .error (.keyError "preprocessed_params_id") ∧
    create PreprocessedIlluminaParams ilDb (.str "default2") ilKwargs
      = .error (.duplicateError "PreprocessedIlluminaParams" ilKwargs) := by
  exact ⟨by decide, by decide⟩

/-- Claim C2 (code bug): on the preprocessed classes, a missing or an
extra column raises the `ValueError` naming the offending columns, but on
`ProcessedSortmernaParams` both `exists` and `create` raise `KeyError`
from the hard-coded `preprocessed_params_id` in `_check_columns` before
any column validation can be reported. -/
theorem C2_column_validation_behavior :
    «exists» PreprocessedIlluminaParams ilDb
        [("max_bad_run_length", .int 3), ("rev_comp", .bool true)]
      = .error (.valueError "Missing columns: barcode_type") ∧
    «exists» PreprocessedIlluminaParams ilDb (ilKwargs ++ [("bogus", .int 0)])
      = .error (.valueError "Extra columns: bogus") ∧
    «exists» ProcessedSortmernaParams smDb
        [("sortmerna_e_value", .int 1), ("sortmerna_coverage", .int 97), ("threads", .int 1)]
      = .error (.keyError "preprocessed_params_id") ∧
    create ProcessedSortmernaParams smDb (.str "x") (smKwargs ++ [("bogus", .int 0)])
      = .error (.keyError "preprocessed_params_id") := by
  exact ⟨by decide, by decide, by decide, by decide⟩

/-- Claim C3 (code bug): on `PreprocessedIlluminaParams` a novel value
combination is inserted as exactly one row, the new serial key is
returned and `exists` subsequently reports it; on
`ProcessedSortmernaParams` the same call raises `KeyError` from the
hard-coded `preprocessed_params_id` and never succeeds. -/
theorem C3_create_novel_behavior :
    create PreprocessedIlluminaParams emptyDb (.str "novel") ilKwargs = .ok (ilDb1, 1) ∧
    «exists» PreprocessedIlluminaParams ilDb1 ilKwargs = .ok (ilDb1, true) ∧
    create ProcessedSortmernaParams emptyDb (.str "novel") smKwargs
      = .error (.keyError "preprocessed_params_id") := by
  exact ⟨by decide, by decide, by decide⟩

/-- Claim C6: for each of the parameter-set classes of the program, every
table state reachable by a sequence of `create` operations from a state
with no duplicate value-sets again has no two rows sharing the same full
combination of non-key column values. -/
theorem C6_create_preserves_uniqueness (cls : ParamsCls)
    (hcls : cls = PreprocessedIlluminaParams ∨ cls = Preprocessed454Params ∨
      cls = ProcessedSortmernaParams)
    (db db' : DB) (hreach : CreateReach cls db db') (hinv : noDupVals cls db) :
    noDupVals cls db' := by
  induction hreach with
  | refl => exact hinv
  | step db1 db2 name kw i hnd hr hc ih =>
    rcases hcls with h | h | h
    · exact create_preserves_noDupVals (by rw [h]; rfl) hnd hc ih
    · exact create_preserves_noDupVals (by rw [h]; rfl) hnd hc ih
    · rw [h, create_sortmerna_err] at hc
      cases hc

/-- Claim C7: `exists`, `to_str`, `to_file` and `reference` never modify
the parameter table; a `create` either leaves the state unchanged (when
it raises) or performs exactly one single-row insert, and any sequence of
operations only ever appends rows — created parameter sets are never
updated or deleted. -/
theorem C7_reads_never_modify (cls : ParamsCls) (db : DB)
    (kwargs : List (String × Value)) (n : Value) (i1 i2 i3 : Int) :
    runOp cls db (.opExists kwargs) = db ∧
    runOp cls db (.opToStr i1) = db ∧
    runOp cls db (.opToFile i2) = db ∧
    runOp cls db (.opReference i3) = db ∧
    (runOp cls db (.opCreate n kwargs) = db ∨
      ∃ r, (runOp cls db (.opCreate n kwargs)).rows = db.rows ++ [r] ∧
           (runOp cls db (.opCreate n kwargs)).nextId = db.nextId + 1) ∧
    (∀ ops : List Op, ∃ t, (ops.foldl (runOp cls) db).rows = db.rows ++ t) :=
  ⟨runOp_read_exists cls db kwargs, runOp_read_to_str cls db i1,
   runOp_read_to_file cls db i2, runOp_read_reference cls db i3,
   runOp_create_frame cls db n kwargs, fun ops => foldl_runOp_rows cls ops db⟩

/-- Claim C8: in `RawDataEditorTab.render`, `disable_link_btn` holds iff
the link status is `linking` or `unlinking`; `show_unlink_btn` holds iff
the status is neither of those, the study is editable (sandbox status or
admin user) and at least one file is attached; and for a settled status
the link message is the error message containing the status string
exactly when the status starts with `failed`, and empty otherwise. -/
theorem C8_link_flags {α : Type} (status ss ul : String) (files : List α) :
    ((linkFlags status (is_editable ss ul) files).disable_link_btn = true ↔
      (status = "linking" ∨ status = "unlinking")) ∧
    ((linkFlags status (is_editable ss ul) files).show_unlink_btn = true ↔
      (status ≠ "linking" ∧ status ≠ "unlinking" ∧
        (ss = "sandbox" ∨ ul = "admin") ∧ files ≠ [])) ∧
    (status ≠ "linking" → status ≠ "unlinking" →
      (startswith status "failed" = true →
        (linkFlags status (is_editable ss ul) files).link_msg
            = "Error (un)linkingfiles: " ++ status ∧
        ∃ pre post, (linkFlags status (is_editable ss ul) files).link_msg
            = pre ++ status ++ post) ∧
      (startswith status "failed" = false →
        (linkFlags status (is_editable ss ul) files).link_msg = "")) := by
  unfold linkFlags is_editable
  by_cases h1 : status = "linking"
  · simp [h1]
  · by_cases h2 : status = "unlinking"
    · simp [h1, h2]
    · rw [if_neg h1, if_neg h2]
      refine ⟨by simp [h1, h2], ?_, ?_⟩
      · simp [h1, h2, List.isEmpty_iff, and_assoc]
      · intro _ _
        constructor
        · intro hf
          rw [if_pos hf]
          exact ⟨rfl, "Error (un)linkingfiles: ", "", by simp⟩
        · intro hf
          rw [if_neg (by simp [hf])]

/-- Claim C9: the rendered ENA investigation-type list is the options for
the terms of the ontology other than `Other`, each appearing exactly once,
in ascending order, each rendered with its value attribute and text equal
to the term, followed by the `Other` option as the last element. -/
theorem C9_ena_terms_sorted_other_last (terms : List String) (hnd : terms.Nodup) :
    ∃ ts : List String,
      ena_terms terms = ts.map optionHtml ++ [optionHtml "Other"] ∧
      ts.Pairwise (fun a b => a < b) ∧
      (∀ t, t ∈ ts ↔ (t ∈ terms ∧ t ≠ "Other")) := by
  refine ⟨(pySorted strLe terms).filter (fun v => !(v == "Other")), ?_, ?_, ?_⟩
  · unfold ena_terms
    rw [foldl_append_options]
    simp
  · have hsorted : List.Sorted strLe (pySorted strLe terms) :=
      List.sorted_insertionSort _ _
    have hndp : (pySorted strLe terms).Nodup :=
      ((List.perm_insertionSort strLe terms).nodup_iff).mpr hnd
    have hlt : (pySorted strLe terms).Pairwise (fun a b => a < b) :=
      (List.Pairwise.and hsorted hndp).imp
        (fun h => lt_of_le_of_ne ((strLe_iff _ _).mp h.1) h.2)
    exact hlt.filter _
  · intro t
    constructor
    · intro ht
      have h := List.mem_filter.mp ht
      exact ⟨(List.perm_insertionSort strLe terms).mem_iff.mp h.1, by simpa using h.2⟩
    · rintro ⟨hmem, hne⟩
      exact List.mem_filter.mpr
        ⟨(List.perm_insertionSort strLe terms).mem_iff.mpr hmem, by simpa using hne⟩

/-- Claim C10: `is_editable` is true iff the study status is `sandbox` or
the user level is `admin`; consequently a non-admin user with a study in
any other status gets a non-editable editor. -/
theorem C10_is_editable_iff (ss ul : String) :
    (is_editable ss ul = true ↔ (ss = "sandbox" ∨ ul = "admin")) ∧
    (ul ≠ "admin" → ss ≠ "sandbox" → is_editable ss ul = false) := by
  constructor
  · simp [is_editable]
  · intro h1 h2
    simp [is_editable, h1, h2]

/-! Witnesses instantiating the hypothesis-carrying theorems on concrete
inputs. -/

/-- Witness for C4 at the Illumina fixture. -/
theorem C4_witness :
    to_str PreprocessedIlluminaParams ilDb 1
      = .ok (ilDb, toStrSpec PreprocessedIlluminaParams ilRow) :=
  C4_to_str_renders_sorted_flags PreprocessedIlluminaParams ilDb 1 ilRow
    (by decide) (by decide) (by decide) (by decide) (by decide)

/-- Witness for C5 at the sortmerna fixture. -/
theorem C5_witness :
    to_file ProcessedSortmernaParams smDb 1 = .ok (smDb, toFileSpec smRow) :=
  C5_to_file_format smDb 1 smRow (by decide) (by decide) (by decide)

/-- Witness for C6: one concrete `create` step from the empty table. -/
theorem C6_witness : noDupVals PreprocessedIlluminaParams ilDb1 :=
  C6_create_preserves_uniqueness PreprocessedIlluminaParams (Or.inl rfl) emptyDb ilDb1
    (CreateReach.step emptyDb emptyDb ilDb1 (.str "novel") ilKwargs 1 (by decide)
      (CreateReach.refl emptyDb) (by decide))
    List.Pairwise.nil

/-- Witness for C8 at a concrete failed status. -/
theorem C8_witness :
    (linkFlags "failed: error" (is_editable "sandbox" "user")
        ["file.fastq"]).link_msg = "Error (un)linkingfiles: failed: error" :=
  (((C8_link_flags "failed: error" "sandbox" "user" ["file.fastq"]).2.2
    (by decide) (by decide)).1 (by decide)).1

/-- Witness for C9 at a concrete term list. -/
theorem C9_witness :
    ∃ ts : List String,
      ena_terms ["Other", "WGS", "AMPLICON"] = ts.map optionHtml ++ [optionHtml "Other"] ∧
      ts.Pairwise (fun a b => a < b) ∧
      (∀ t, t ∈ ts ↔ (t ∈ ["Other", "WGS", "AMPLICON"] ∧ t ≠ "Other")) :=
  C9_ena_terms_sorted_other_last ["Other", "WGS", "AMPLICON"] (by decide)

/-- Witness for C10 at a concrete non-admin, non-sandbox input. -/
theorem C10_witness : is_editable "private" "user" = false :=
  (C10_is_editable_iff "private" "user").2 (by decide) (by decide)

end Qiita
